import Mathlib

/-!
Verification development for the Sport Filtering & Unified Data Layer of the
A1Betting repository.

Shallow embedding of three source modules:
* `constants/unifiedSports.ts` (src/unnamed/part_001, lines 163-536): the sport
  registry, `getSportConfig`, `isValidSport`, `normalizeSportId`;
* `utils/sportFiltering.ts` (src/unnamed/part_007): `filterBySport`,
  `extractUniqueSports`, `isValidSportFilter`, `normalizeSportFilter`,
  `COMMON_SPORT_MAPPINGS`, `filterSportData`;
* `services/unifiedDataService.ts` (src/unnamed/part_003): the TTL cache
  primitives and the facade methods `getBettingOpportunities`,
  `getPlayerProps`, `getAvailableSports`.

Embedding conventions:
* JS numbers holding integral data (timestamps, odds, confidences, TTLs) are
  modelled as `Int`.
* JS `x || default` falsy-coalescing is modelled by `orNum` / `orStr`
  (0 and "" are falsy; absent fields are `Option.none`).
* The upstream HTTP client is a parameter of type
  `request → Except String response`; `Except.error` models a thrown/rejected
  promise, mirroring the `try`/`catch` structure of the source.
* `Date.now()` is an explicit `now : Int` parameter; `Date.toISOString` and
  `Math.random` are uninterpreted functions packed in `JsEnv` (no claim
  depends on their values).
* The JS `Map` used as cache is an insertion-ordered association list; the
  three value shapes it holds are collected in the sum type `CacheValue`
  (the cache keys are endpoint-prefixed, so the source's unchecked casts on
  read always see the variant that was written under that key).
* TS structural generics (`T extends SportFilterable`) are modelled by an
  explicit field projection `sportOf : T → String`.
-/

/-- JS falsy-default for numbers: `x || d` (0, null and undefined are falsy). -/
def orNum (x : Option Int) (d : Int) : Int :=
  match x with
  | some v => if v = 0 then d else v
  | none => d

/-- JS falsy-default for strings: `x || d` ("" , null and undefined are falsy). -/
def orStr (x : Option String) (d : String) : String :=
  match x with
  | some v => if v = "" then d else v
  | none => d

/-- JS `x || d` for arrays: only null/undefined are falsy (an empty array is truthy). -/
def orList (x : Option (List Int)) (d : List Int) : List Int :=
  match x with
  | some v => v
  | none => d

/-- JS truthiness of an optional number (used by `if (filters.minConfidence)` etc.). -/
def numTruthy (x : Option Int) : Bool :=
  match x with
  | some v => v != 0
  | none => false

/-- JS truthiness of an optional string (used by `if (filters.sport)` etc.). -/
def strTruthy (x : Option String) : Bool :=
  match x with
  | some v => v != ""
  | none => false

/-- JS `String.prototype.includes`: contiguous substring test. -/
def jsIncludes (hay sub : String) : Bool := decide (sub.data <:+: hay.data)

/-- JS `String.prototype.toLowerCase` (ASCII range, as Lean's `Char.toLower`). -/
def jsToLowerCase (s : String) : String := String.mk (s.data.map Char.toLower)

/-- JS `Array.prototype.slice(0, m)` (a negative bound counts from the end). -/
def jsSlice0 {α : Type} (l : List α) (m : Int) : List α :=
  if 0 ≤ m then l.take m.toNat else l.take (l.length - (-m).toNat)

/-- Association-list lookup with string keys, first match wins (JS object /
`Map` key lookup). -/
def lookupStr {β : Type} : List (String × β) → String → Option β
  | [], _ => none
  | (k, v) :: rest, s => if k = s then some v else lookupStr rest s

/-! ## constants/unifiedSports.ts -/

def UNIFIED_SPORTS.ALL : String := "all"

def UNIFIED_SPORTS.NBA : String := "nba"

def UNIFIED_SPORTS.NFL : String := "nfl"

def UNIFIED_SPORTS.MLB : String := "mlb"

def UNIFIED_SPORTS.NHL : String := "nhl"

def UNIFIED_SPORTS.SOCCER : String := "soccer"

/-- Sport configuration record. The source also stores presentation metadata
(emoji, color, season window, stats, positions, markets); no claim mentions
those fields, so only the identifying fields are embedded. -/
structure SportConfig where
  id : String
  name : String
  displayName : String
  isActive : Bool
deriving Repr, DecidableEq

/-- `SPORT_CONFIGS`: the static registry table, keyed by canonical id. -/
def SPORT_CONFIGS : List (String × SportConfig) :=
  [ ("all", ⟨"all", "all", "All Sports", true⟩),
    ("nba", ⟨"nba", "nba", "NBA Basketball", true⟩),
    ("wnba", ⟨"wnba", "wnba", "WNBA Basketball", true⟩),
    ("nfl", ⟨"nfl", "nfl", "NFL Football", true⟩),
    ("mlb", ⟨"mlb", "mlb", "MLB Baseball", true⟩),
    ("nhl", ⟨"nhl", "nhl", "NHL Hockey", true⟩),
    ("soccer", ⟨"soccer", "soccer", "Soccer/Football", true⟩),
    ("pga", ⟨"pga", "pga", "PGA Golf", true⟩),
    ("tennis", ⟨"tennis", "tennis", "Tennis", true⟩),
    ("esports", ⟨"esports", "esports", "Esports", true⟩),
    ("mma", ⟨"mma", "mma", "Mixed Martial Arts", true⟩),
    ("college-football", ⟨"college-football", "college-football", "College Football", true⟩),
    ("college-basketball", ⟨"college-basketball", "college-basketball", "College Basketball", true⟩) ]

/-- The registry's key set (the canonical sport ids). -/
def SPORT_IDS : List String := SPORT_CONFIGS.map Prod.fst

/-- `getSportConfig`: case-insensitive registry lookup. -/
def getSportConfig (sportId : String) : Option SportConfig :=
  lookupStr SPORT_CONFIGS (jsToLowerCase sportId)

/-- `isValidSport`: a sport id is valid iff the registry lookup succeeds. -/
def isValidSport (sportId : String) : Bool :=
  (getSportConfig sportId).isSome

/-- The character class of the regex `[-_\s]` in `normalizeSportId`. -/
def isSeparatorChar (c : Char) : Bool :=
  c = '-' || c = '_' || c = ' ' || c = '\t' || c = '\n' || c = '\r' || c = '\x0b' || c = '\x0c'

/-- `.replace(/[-_\s]/g, "-")`: every separator character becomes a hyphen. -/
def replaceSeparators (s : String) : String :=
  String.mk (s.data.map (fun c => if isSeparatorChar c then '-' else c))

/-- `normalizeSportId`: lowercase, turn separators into hyphens, then fall back
to the wildcard when the candidate is not registered. -/
def normalizeSportId (sportId : String) : String :=
  let normalized := replaceSeparators (jsToLowerCase sportId)
  if isValidSport normalized then normalized else UNIFIED_SPORTS.ALL

/-! ## utils/sportFiltering.ts -/

/-- Options record of `filterBySport`. The TS fields are optional with
destructuring defaults `includeAll = true`, `caseSensitive = false`,
`allowPartialMatch = true`, `mapSportNames = {}`; callers of the embedding pass
the resolved values. -/
structure SportFilterOptions where
  sport : String
  includeAll : Bool
  caseSensitive : Bool
  allowPartialMatch : Bool
  mapSportNames : List (String × String)

/-- The per-item predicate inside `filterBySport` (the body of the
`items.filter` callback, after the target sport has been normalized). -/
def sportMatches (caseSensitive allowPartialMatch : Bool)
    (mapSportNames : List (String × String))
    (normalizedTargetSport : String) (itemSportRaw : String) : Bool :=
  if itemSportRaw = "" then false
  else
    let itemSport :=
      match lookupStr mapSportNames itemSportRaw with
      | some m => if m = "" then itemSportRaw else m
      | none => itemSportRaw
    let normalizedItemSport := if caseSensitive then itemSport else jsToLowerCase itemSport
    if normalizedItemSport = normalizedTargetSport then true
    else if allowPartialMatch then
      jsIncludes normalizedItemSport normalizedTargetSport ||
        jsIncludes normalizedTargetSport normalizedItemSport
    else false

/-- `filterBySport`: wildcard bypass, then per-item intelligent matching. -/
def filterBySport {T : Type} (sportOf : T → String) (items : List T)
    (o : SportFilterOptions) : List T :=
  if o.includeAll && (o.sport == UNIFIED_SPORTS.ALL || o.sport == "all" || o.sport == "") then
    items
  else
    let normalizedTargetSport := if o.caseSensitive then o.sport else jsToLowerCase o.sport
    items.filter fun item =>
      sportMatches o.caseSensitive o.allowPartialMatch o.mapSportNames
        normalizedTargetSport (sportOf item)

/-- JS `Set.add` on an insertion-ordered set modelled as a duplicate-free list. -/
def jsSetAdd (l : List String) (s : String) : List String :=
  if s ∈ l then l else l ++ [s]

/-- The comparator passed to `sports.sort` in `extractUniqueSports`: wildcard
first, then `localeCompare` (modelled as code-point lexicographic order). -/
def allFirstCmp (a b : String) : Int :=
  if a = UNIFIED_SPORTS.ALL then -1
  else if b = UNIFIED_SPORTS.ALL then 1
  else if a < b then -1 else if b < a then 1 else 0

/-- `extractUniqueSports` with resolved options (TS defaults: `includeAll`,
`normalize` and `sortOpt` all true). JS `Array.prototype.sort` is modelled by
a stable merge sort on the comparator. -/
def extractUniqueSports {T : Type} (sportOf : T → String) (items : List T)
    (includeAll normalize sortOpt : Bool) : List String :=
  let sportsSet := items.foldl
    (fun acc item =>
      if sportOf item ≠ "" then
        jsSetAdd acc (if normalize then normalizeSportId (sportOf item) else sportOf item)
      else acc)
    []
  let sports := if includeAll then UNIFIED_SPORTS.ALL :: sportsSet else sportsSet
  if sortOpt then sports.mergeSort (fun a b => allFirstCmp a b ≤ 0) else sports

/-- `isValidSportFilter`. -/
def isValidSportFilter (sport : String) : Bool :=
  if sport = "" then false
  else if sport = UNIFIED_SPORTS.ALL || sport = "all" then true
  else (getSportConfig sport).isSome

/-- `normalizeSportFilter`: wildcard passthrough, then registry normalization. -/
def normalizeSportFilter (sport : String) : String :=
  if sport = "" || sport = "all" then UNIFIED_SPORTS.ALL
  else normalizeSportId sport

/-- `COMMON_SPORT_MAPPINGS`: the static alias table used by `filterSportData`
(item-side mapping before comparison). -/
def COMMON_SPORT_MAPPINGS : List (String × String) :=
  [ ("basketball", "nba"), ("football", "nfl"), ("baseball", "mlb"),
    ("hockey", "nhl"), ("golf", "pga"), ("mma", "mma"), ("ufc", "mma"),
    ("esport", "esports"), ("gaming", "esports"),
    ("NBA", "nba"), ("NFL", "nfl"), ("MLB", "mlb"), ("NHL", "nhl"),
    ("WNBA", "wnba"), ("PGA", "pga"), ("MMA", "mma"), ("Soccer", "soccer"),
    ("Tennis", "tennis"), ("Esports", "esports"),
    ("futbol", "soccer"), ("football_eu", "soccer"),
    ("american_football", "nfl") ]

/-- Options record of `filterSportData` (TS defaults: `useCommonMappings =
true`, `allowPartialMatch = true`, `caseSensitive = false`). -/
structure FilterSportDataOptions where
  useCommonMappings : Bool
  allowPartialMatch : Bool
  caseSensitive : Bool

/-- The resolved default options of `filterSportData`. -/
def filterSportDataDefaults : FilterSportDataOptions := ⟨true, true, false⟩

/-- `filterSportData`: high-level filtering entry point. -/
def filterSportData {T : Type} (sportOf : T → String) (items : List T)
    (selectedSport : String) (o : FilterSportDataOptions) : List T :=
  filterBySport sportOf items
    ⟨selectedSport, true, o.caseSensitive, o.allowPartialMatch,
      if o.useCommonMappings then COMMON_SPORT_MAPPINGS else []⟩

/-! ## Basic lemmas about the registry and normalizer -/

/-- `Char.toLower` is idempotent. -/
theorem Char.toLower_idem (c : Char) : c.toLower.toLower = c.toLower := by
  simp only [Char.toLower]
  split
  · next h =>
    have hv : (c.toNat + 32).isValidChar := by
      constructor
      omega
    rw [Char.ofNat, dif_pos hv]
    have hn : (Char.ofNatAux (c.toNat + 32) hv).toNat = c.toNat + 32 := rfl
    rw [hn]
    split
    · omega
    · rfl
  · rfl

/-- The output of the lowercase-then-replace normalization is fixed by a
further lowercasing. -/
theorem jsToLowerCase_replaceSeparators_jsToLowerCase (s : String) :
    jsToLowerCase (replaceSeparators (jsToLowerCase s))
      = replaceSeparators (jsToLowerCase s) := by
  unfold jsToLowerCase replaceSeparators
  simp only [List.map_map]
  refine congrArg String.mk (List.map_congr_left ?_)
  intro c _
  simp only [Function.comp]
  by_cases h : isSeparatorChar c.toLower
  · simp [h]
  · simp [h, Char.toLower_idem]

/-- A successful association-list lookup means the key is in the key list. -/
theorem lookupStr_mem {β : Type} (l : List (String × β)) (s : String) (v : β)
    (h : lookupStr l s = some v) : s ∈ l.map Prod.fst := by
  induction l with
  | nil => simp [lookupStr] at h
  | cons hd tl ih =>
    by_cases hk : hd.1 = s
    · simp [hk]
    · simp only [lookupStr] at h
      rw [if_neg hk] at h
      simp [ih h]

/-! ## Generic fold-membership lemmas (for `extractUniqueSports`) -/

/-- Membership in `jsSetAdd` is preserved. -/
theorem mem_jsSetAdd_left (l : List String) (a s : String) (h : a ∈ l) :
    a ∈ jsSetAdd l s := by
  unfold jsSetAdd
  split
  · exact h
  · exact List.mem_append_left _ h

/-- The added element is a member of `jsSetAdd`. -/
theorem mem_jsSetAdd_self (l : List String) (s : String) : s ∈ jsSetAdd l s := by
  unfold jsSetAdd
  split
  · assumption
  · exact List.mem_append_right _ (List.mem_singleton.mpr rfl)

/-- A fold whose step preserves membership preserves membership. -/
theorem foldl_mem_mono {T A : Type} (step : List A → T → List A)
    (mono : ∀ acc it a, a ∈ acc → a ∈ step acc it) :
    ∀ (items : List T) (acc : List A) (a : A), a ∈ acc → a ∈ items.foldl step acc := by
  intro items
  induction items with
  | nil => intro acc a ha; simpa using ha
  | cons hd tl ih =>
    intro acc a ha
    exact ih _ _ (mono _ _ _ ha)

/-- If some list element forces `a` into the accumulator and the step is
monotone, `a` is in the fold's result. -/
theorem foldl_mem_target {T A : Type} (step : List A → T → List A)
    (mono : ∀ acc it a, a ∈ acc → a ∈ step acc it)
    (items : List T) (i : T) (hi : i ∈ items) (a : A)
    (hstep : ∀ acc, a ∈ step acc i) :
    ∀ acc, a ∈ items.foldl step acc := by
  induction items with
  | nil => cases hi
  | cons hd tl ih =>
    intro acc
    rw [List.foldl_cons]
    rcases List.mem_cons.mp hi with hh | ht
    · subst hh
      exact foldl_mem_mono step mono tl _ a (hstep acc)
    · exact ih ht (step acc hd)

/-! ## Claims about the normalizer and the filter -/

/-- C5: normalization is total: for every input string (including the empty
string and unrecognized garbage) `normalizeSportFilter` returns an id that is
a key of the sport config table; unrecognized input yields the wildcard
`"all"`, and the function never fails. -/
theorem normalizeSportFilter_total (x : String) : normalizeSportFilter x ∈ SPORT_IDS := by
  unfold normalizeSportFilter
  split
  · show UNIFIED_SPORTS.ALL ∈ SPORT_IDS
    decide
  · unfold normalizeSportId
    simp only []
    split
    · next hv =>
      unfold isValidSport getSportConfig at hv
      rw [jsToLowerCase_replaceSeparators_jsToLowerCase] at hv
      rcases ho : lookupStr SPORT_CONFIGS (replaceSeparators (jsToLowerCase x)) with _ | v
      · rw [ho] at hv
        simp at hv
      · exact lookupStr_mem _ _ _ ho
    · show UNIFIED_SPORTS.ALL ∈ SPORT_IDS
      decide

/-- C5 witness: the theorem evaluated at a garbage input. -/
theorem normalizeSportFilter_total_witness : normalizeSportFilter "NBA Finals!!" ∈ SPORT_IDS :=
  normalizeSportFilter_total "NBA Finals!!"

/-- C8: wildcard identity: with default options, filtering by the wildcard
`"all"` or by the empty string returns the input collection itself, same
elements in the same order. -/
theorem filterSportData_wildcard {T : Type} (sportOf : T → String) (items : List T) :
    filterSportData sportOf items "all" filterSportDataDefaults = items ∧
    filterSportData sportOf items "" filterSportDataDefaults = items := by
  constructor <;> rfl

/-- C3 counterexample: `normalizeSportFilter` does not return the aliased
canonical ids for `"basketball"` and `"ufc"`; it returns the wildcard. -/
theorem normalizeSportFilter_alias_cex :
    normalizeSportFilter "basketball" = "all" ∧ normalizeSportFilter "basketball" ≠ "nba" ∧
    normalizeSportFilter "ufc" = "all" ∧ normalizeSportFilter "ufc" ≠ "mma" := by
  refine ⟨rfl, by decide, rfl, by decide⟩

/-- C3 amended: the static alias table is consulted by the filtering helpers,
not by the normalizer: `normalizeSportFilter` sends the alias inputs
`"basketball"` and `"ufc"` to the wildcard `"all"`, while `filterSportData`
(which applies `COMMON_SPORT_MAPPINGS` to the item's tag) matches an item
tagged `"basketball"` when filtering for `"nba"` and an item tagged `"ufc"`
when filtering for `"mma"`. -/
theorem aliasTable_in_filter_not_normalizer :
    normalizeSportFilter "basketball" = "all" ∧ normalizeSportFilter "ufc" = "all" ∧
    filterSportData id ["basketball"] "nba" filterSportDataDefaults = ["basketball"] ∧
    filterSportData id ["ufc"] "mma" filterSportDataDefaults = ["ufc"] := by
  refine ⟨rfl, rfl, ?_, ?_⟩ <;> rfl

/-- C4 counterexample: an item tagged with the canonical id `"wnba"` is
accepted by `filterSportData` when filtering for `"nba"` (because with the
default `allowPartialMatch` the target `"nba"` is a substring of `"wnba"`),
so the result is not the subset of items with tag `"nba"`. -/
theorem filterSportData_exactTag_cex :
    filterSportData id ["wnba"] "nba" filterSportDataDefaults = ["wnba"] ∧
    List.filter (fun s => s == "nba") ["wnba"] = [] := by
  refine ⟨rfl, rfl⟩

/-- C4 amended: for a collection whose sport tags are exactly canonical
registry ids, `filterSportData` with default options and target `"nba"`
returns exactly the subset whose tag is `"nba"` or `"wnba"` (the one other
canonical id related to `"nba"` by the substring fallback), preserving the
items' relative order. -/
theorem filterSportData_nba_on_canonical {T : Type} (sportOf : T → String)
    (items : List T) (h : ∀ i ∈ items, sportOf i ∈ SPORT_IDS) :
    filterSportData sportOf items "nba" filterSportDataDefaults
      = items.filter (fun i => sportOf i == "nba" || sportOf i == "wnba") := by
  have key : ∀ s ∈ SPORT_IDS,
      sportMatches false true COMMON_SPORT_MAPPINGS (jsToLowerCase "nba") s
        = (s == "nba" || s == "wnba") := by decide
  unfold filterSportData filterBySport
  rw [if_neg (by decide)]
  exact List.filter_congr fun i hi => key (sportOf i) (h i hi)

/-- C4 witness: the amended theorem evaluated on a concrete canonical-tagged
collection. -/
theorem filterSportData_nba_on_canonical_witness :
    filterSportData id ["nba", "mlb", "wnba", "all"] "nba" filterSportDataDefaults
      = List.filter (fun s => s == "nba" || s == "wnba") ["nba", "mlb", "wnba", "all"] :=
  filterSportData_nba_on_canonical id ["nba", "mlb", "wnba", "all"] (by decide)

/-- C10 counterexample: an item whose sport tag is the empty string does
normalize to `"all"`, but `extractUniqueSports` skips falsy tags, so the
returned list contains `"all"` only once (from the unconditional prepend). -/
theorem extractUniqueSports_empty_tag_cex :
    normalizeSportId "" = "all" ∧
    List.count "all" (extractUniqueSports id [""] true true true) = 1 := by
  constructor
  · rfl
  · have h1 : extractUniqueSports id [""] true true true
        = List.mergeSort ["all"] (fun a b => decide (allFirstCmp a b ≤ 0)) := rfl
    rw [h1, (List.mergeSort_perm _ _).count_eq]
    rfl

/-- C10 amended: with default options, for every input list containing an item
whose sport tag is nonempty and normalizes to `"all"` (any nonempty
unregistered tag), the returned list contains `"all"` at least twice: once
from the normalized set and once from the unconditional wildcard prepend. -/
theorem extractUniqueSports_wildcard_dup {T : Type} (sportOf : T → String)
    (items : List T)
    (h : ∃ i ∈ items, sportOf i ≠ "" ∧ normalizeSportId (sportOf i) = "all") :
    2 ≤ List.count "all" (extractUniqueSports sportOf items true true true) := by
  obtain ⟨i, hi, hne, hnorm⟩ := h
  have mono : ∀ (acc : List String) (it : T) (a : String), a ∈ acc →
      a ∈ (if sportOf it ≠ "" then
             jsSetAdd acc (if true then normalizeSportId (sportOf it) else sportOf it)
           else acc) := by
    intro acc it a ha
    split
    · exact mem_jsSetAdd_left _ _ _ ha
    · exact ha
  have hstep : ∀ acc : List String,
      "all" ∈ (if sportOf i ≠ "" then
                 jsSetAdd acc (if true then normalizeSportId (sportOf i) else sportOf i)
               else acc) := by
    intro acc
    rw [if_pos hne]
    simp only [if_true]
    rw [hnorm]
    exact mem_jsSetAdd_self acc "all"
  have hmem : "all" ∈ items.foldl
      (fun acc item =>
        if sportOf item ≠ "" then
          jsSetAdd acc (if true then normalizeSportId (sportOf item) else sportOf item)
        else acc) [] :=
    foldl_mem_target _ mono items i hi "all" hstep []
  have hform : extractUniqueSports sportOf items true true true
      = List.mergeSort
          (UNIFIED_SPORTS.ALL :: items.foldl
            (fun acc item =>
              if sportOf item ≠ "" then
                jsSetAdd acc (if true then normalizeSportId (sportOf item) else sportOf item)
              else acc) [])
          (fun a b => decide (allFirstCmp a b ≤ 0)) := rfl
  rw [hform, (List.mergeSort_perm _ _).count_eq,
    show UNIFIED_SPORTS.ALL = "all" from rfl, List.count_cons_self]
  have := List.count_pos_iff.mpr hmem
  omega

/-- C10 witness: the amended theorem evaluated on a concrete list with an
unregistered nonempty tag. -/
theorem extractUniqueSports_wildcard_dup_witness :
    2 ≤ List.count "all" (extractUniqueSports id ["garbage-sport"] true true true) :=
  extractUniqueSports_wildcard_dup id ["garbage-sport"]
    ⟨"garbage-sport", by decide, by decide, rfl⟩

/-! ## services/unifiedDataService.ts: data shapes -/

/-- The unified betting-opportunity record produced by the facade. -/
structure UnifiedBettingOpportunity where
  id : String
  sport : String
  game : String
  event : String
  market : String
  betType : String
  line : Int
  odds : Int
  bookmaker : String
  expectedValue : Int
  confidence : Int
  edge : Int
  stake : Option Int
  potentialProfit : Option Int
  riskLevel : String
  category : String
  expires : String
  timestamp : Int
deriving Repr, DecidableEq

/-- The unified player-prop record produced by the facade. -/
structure UnifiedPlayerProp where
  id : String
  player : String
  team : String
  position : String
  stat : String
  line : Int
  overOdds : Int
  underOdds : Int
  gameTime : String
  opponent : String
  sport : String
  confidence : Int
  projection : Int
  edge : Int
  pickType : String
  reasoning : String
  lastGameStats : List Int
  seasonAvg : Int
  recentForm : String
  injuryStatus : String
  weatherImpact : Option Int
  homeAwayFactor : Int
  timestamp : Int
deriving Repr, DecidableEq

/-- `UnifiedDataFilters`: every field is optional in TS. -/
structure UnifiedDataFilters where
  sport : Option String
  minConfidence : Option Int
  maxResults : Option Int
  includeExpired : Option Bool
  sortBy : Option String
  sortOrder : Option String
deriving Repr, DecidableEq

/-- The empty filter object `{}`. -/
def emptyFilters : UnifiedDataFilters := ⟨none, none, none, none, none, none⟩

/-- `UnifiedApiResponse`: the outbound shape of every facade method. -/
structure UnifiedApiResponse (α : Type) where
  success : Bool
  data : Option (List α)
  count : Option Int
  filters : Option UnifiedDataFilters
  error : Option String
  timestamp : Int
  cached : Option Bool
deriving Repr, DecidableEq

/-- Raw provider JSON shape of a betting opportunity: every field access in
the transform treats the field as optional. -/
structure RawBettingOpportunity where
  id : Option String
  sport : Option String
  game : Option String
  event : Option String
  market : Option String
  betType : Option String
  bookmaker : Option String
  riskLevel : Option String
  category : Option String
  expires : Option String
  line : Option Int
  odds : Option Int
  expectedValue : Option Int
  confidence : Option Int
  edge : Option Int
deriving Repr, DecidableEq

/-- Raw provider JSON shape of a player prop. -/
structure RawPlayerProp where
  id : Option String
  player : Option String
  team : Option String
  position : Option String
  stat : Option String
  gameTime : Option String
  opponent : Option String
  sport : Option String
  pickType : Option String
  reasoning : Option String
  recentForm : Option String
  injuryStatus : Option String
  line : Option Int
  overOdds : Option Int
  underOdds : Option Int
  confidence : Option Int
  projection : Option Int
  edge : Option Int
  seasonAvg : Option Int
  homeAwayFactor : Option Int
  weatherImpact : Option Int
  lastGameStats : Option (List Int)
deriving Repr, DecidableEq

/-- A raw player prop with every provider field absent. -/
def emptyRawPlayerProp : RawPlayerProp :=
  ⟨none, none, none, none, none, none, none, none, none, none, none, none,
   none, none, none, none, none, none, none, none, none, none⟩

/-- Request shape of `api.getBettingOpportunities`. -/
structure BettingApiRequest where
  sport : String
  minEdge : Int
  maxResults : Int
deriving Repr, DecidableEq

/-- Request shape of `api.getPrizePicksProps`. -/
structure PropsApiRequest where
  sport : String
  minConfidence : Int
deriving Repr, DecidableEq

/-- Upstream client response shape (`{success, data, error}`). -/
structure ApiClientResponse (α : Type) where
  success : Bool
  data : Option (List α)
  error : Option String
deriving Repr, DecidableEq

/-- An upstream call fails when the client throws (`Except.error`) or the
response is unsuccessful or carries no data — exactly the condition that makes
the facade body throw into its catch block. -/
def fetchFailed {α : Type} : Except String (ApiClientResponse α) → Bool
  | Except.error _ => true
  | Except.ok r => !r.success || r.data.isNone

/-- The message of the error the facade body throws for a failed upstream
call (`d` is the endpoint-specific default message). -/
def fetchErrorMessage {α : Type} (x : Except String (ApiClientResponse α)) (d : String) : String :=
  match x with
  | Except.error m => m
  | Except.ok r => orStr r.error d

/-- Ambient JS primitives with no Lean counterpart: `Date.toISOString` and the
`Math.random`-based tag used in generated fallback ids (indexed by the
element's position in the response array). No claim depends on their values. -/
structure JsEnv where
  isoString : Int → String
  randomTag : Nat → String

/-- A concrete environment for closed evaluations. -/
def env0 : JsEnv := ⟨fun _ => "", fun _ => ""⟩

namespace UnifiedDataService

/-- The 5-minute default cache TTL. -/
def CACHE_TTL : Int := 5 * 60 * 1000

/-- The three value shapes the single cache map holds (the source types the
map's values as `any`; keys are endpoint-prefixed so each key only ever holds
one shape). -/
inductive CacheValue where
  | betting : UnifiedApiResponse UnifiedBettingOpportunity → CacheValue
  | props : UnifiedApiResponse UnifiedPlayerProp → CacheValue
  | sports : List String → CacheValue
deriving DecidableEq

/-- A cache entry: `{data, timestamp, ttl}`. -/
structure CacheEntry where
  data : CacheValue
  timestamp : Int
  ttl : Int
deriving DecidableEq

/-- The cache map, as an insertion-ordered association list with unique keys
(the JS `Map`). -/
abbrev Cache := List (String × CacheEntry)

/-- `Map.get`. -/
def mapGet (c : Cache) (k : String) : Option CacheEntry :=
  match c with
  | [] => none
  | (k', e) :: rest => if k' = k then some e else mapGet rest k

/-- `Map.set`: replaces in place if the key exists, else appends. -/
def mapSet (c : Cache) (k : String) (e : CacheEntry) : Cache :=
  match c with
  | [] => [(k, e)]
  | (k', e') :: rest => if k' = k then (k, e) :: rest else (k', e') :: mapSet rest k e

/-- `Map.delete`. -/
def mapDelete (c : Cache) (k : String) : Cache :=
  match c with
  | [] => []
  | (k', e') :: rest => if k' = k then rest else (k', e') :: mapDelete rest k

/-- `getCacheKey`: endpoint name plus serialized parameters. -/
def getCacheKey (endpoint : String) (params : String) : String :=
  endpoint ++ ":" ++ params

/-- `JSON.stringify` on a filter object: present fields in declaration order
(`JSON.stringify` omits undefined fields). -/
def jsonStringifyFilters (f : UnifiedDataFilters) : String :=
  let fs : List (Option String) :=
    [ f.sport.map (fun v => "\"sport\":\"" ++ v ++ "\""),
      f.minConfidence.map (fun v => "\"minConfidence\":" ++ toString v),
      f.maxResults.map (fun v => "\"maxResults\":" ++ toString v),
      f.includeExpired.map (fun v => "\"includeExpired\":" ++ (if v then "true" else "false")),
      f.sortBy.map (fun v => "\"sortBy\":\"" ++ v ++ "\""),
      f.sortOrder.map (fun v => "\"sortOrder\":\"" ++ v ++ "\"") ]
  "\x7b" ++ String.intercalate "," (fs.filterMap id) ++ "\x7d"

/-- `isValidCacheEntry`: `Date.now() - entry.timestamp < entry.ttl`. -/
def isValidCacheEntry (now : Int) (entry : CacheEntry) : Bool :=
  decide (now - entry.timestamp < entry.ttl)

/-- `setCache`. -/
def setCache (cache : Cache) (key : String) (data : CacheValue) (now ttl : Int) : Cache :=
  mapSet cache key ⟨data, now, ttl⟩

/-- `getFromCache`: returns the entry's data when present and unexpired;
lazily deletes an expired entry found during the lookup. Returns the value
read (if any) together with the cache after the lookup. -/
def getFromCache (cache : Cache) (key : String) (now : Int) : Option CacheValue × Cache :=
  match mapGet cache key with
  | some entry =>
    if isValidCacheEntry now entry then (some entry.data, cache)
    else (none, mapDelete cache key)
  | none => (none, cache)

/-- The failure response built in each facade method's catch block:
`{success:false, data:[], count:0, error, timestamp}`. -/
def failureResponse (α : Type) (msg : String) (now : Int) : UnifiedApiResponse α :=
  ⟨false, some [], some 0, none, some msg, now, none⟩

/-- The normalized sport sent upstream:
`filters.sport ? normalizeSportFilter(filters.sport) : UNIFIED_SPORTS.ALL`. -/
def normalizedSportOf (filters : UnifiedDataFilters) : String :=
  match filters.sport with
  | some s => if s ≠ "" then normalizeSportFilter s else UNIFIED_SPORTS.ALL
  | none => UNIFIED_SPORTS.ALL

/-- The request sent to `api.getBettingOpportunities`
(`minEdge: 2.0, maxResults: filters.maxResults || 50`). -/
def bettingRequestOf (filters : UnifiedDataFilters) : BettingApiRequest :=
  ⟨normalizedSportOf filters, 2, orNum filters.maxResults 50⟩

/-- The request sent to `api.getPrizePicksProps`
(`minConfidence: filters.minConfidence || 70`). -/
def propsRequestOf (filters : UnifiedDataFilters) : PropsApiRequest :=
  ⟨normalizedSportOf filters, orNum filters.minConfidence 70⟩

/-- The transform from a raw provider betting opportunity to the unified
record (`idx` is the element's position, feeding the random fallback id). -/
def transformBettingOpportunity (env : JsEnv) (now : Int) (idx : Nat)
    (opp : RawBettingOpportunity) : UnifiedBettingOpportunity :=
  { id := orStr opp.id ("bet_" ++ toString now ++ "_" ++ env.randomTag idx)
    sport := orStr opp.sport "unknown"
    game := orStr opp.event (orStr opp.game "Unknown Game")
    event := orStr opp.event (orStr opp.game "Unknown Event")
    market := orStr opp.market "Unknown Market"
    betType := orStr opp.market (orStr opp.betType "Unknown Bet")
    line := orNum opp.line (orNum opp.odds 0)
    odds := orNum opp.odds (-110)
    bookmaker := orStr opp.bookmaker "DraftKings"
    expectedValue := orNum opp.expectedValue (orNum opp.edge 0) * 100
    confidence := orNum opp.confidence 75
    edge := orNum opp.expectedValue (orNum opp.edge 0) * 100
    stake := some 0
    potentialProfit := some 0
    riskLevel := orStr opp.riskLevel "medium"
    category := orStr opp.category "value"
    expires := orStr opp.expires (env.isoString (now + 24 * 60 * 60 * 1000))
    timestamp := now }

/-- The transform from a raw provider player prop to the unified record.
Note: `confidence` is `prop.confidence || 75`, with no clamping. -/
def transformPlayerProp (env : JsEnv) (now : Int) (idx : Nat)
    (prop : RawPlayerProp) : UnifiedPlayerProp :=
  { id := orStr prop.id ("prop_" ++ toString now ++ "_" ++ env.randomTag idx)
    player := orStr prop.player "Unknown Player"
    team := orStr prop.team "Unknown Team"
    position := orStr prop.position "Unknown"
    stat := orStr prop.stat "Points"
    line := orNum prop.line 0
    overOdds := orNum prop.overOdds (-110)
    underOdds := orNum prop.underOdds (-110)
    gameTime := orStr prop.gameTime (env.isoString now)
    opponent := orStr prop.opponent "Unknown Opponent"
    sport := orStr prop.sport "nba"
    confidence := orNum prop.confidence 75
    projection := orNum prop.projection (orNum prop.line 0)
    edge := orNum prop.edge 5
    pickType := orStr prop.pickType "normal"
    reasoning := orStr prop.reasoning "No reasoning provided"
    lastGameStats := orList prop.lastGameStats []
    seasonAvg := orNum prop.seasonAvg (orNum prop.line 0)
    recentForm := orStr prop.recentForm "neutral"
    injuryStatus := orStr prop.injuryStatus "healthy"
    weatherImpact := prop.weatherImpact
    homeAwayFactor := orNum prop.homeAwayFactor 1
    timestamp := now }

/-- The dynamic field access `(a as any)[sortBy] || 0` on a betting record,
restricted to its numeric fields (a string-valued field would make the JS
comparator produce NaN; no claim exercises sorting). -/
def sortFieldBetting (field : String) (o : UnifiedBettingOpportunity) : Int :=
  if field = "line" then o.line
  else if field = "odds" then o.odds
  else if field = "expectedValue" then o.expectedValue
  else if field = "confidence" then o.confidence
  else if field = "edge" then o.edge
  else if field = "stake" then orNum o.stake 0
  else if field = "potentialProfit" then orNum o.potentialProfit 0
  else if field = "timestamp" then o.timestamp
  else 0

/-- The dynamic field access `(a as any)[sortBy] || 0` on a player prop,
restricted to its numeric fields. -/
def sortFieldProp (field : String) (p : UnifiedPlayerProp) : Int :=
  if field = "line" then p.line
  else if field = "overOdds" then p.overOdds
  else if field = "underOdds" then p.underOdds
  else if field = "confidence" then p.confidence
  else if field = "projection" then p.projection
  else if field = "edge" then p.edge
  else if field = "seasonAvg" then p.seasonAvg
  else if field = "homeAwayFactor" then p.homeAwayFactor
  else if field = "weatherImpact" then orNum p.weatherImpact 0
  else if field = "timestamp" then p.timestamp
  else 0

/-- JS `Array.prototype.sort` with the source's comparator
`(bVal - aVal) * direction`, as a stable merge sort. -/
def jsSortByField {T : Type} (fieldVal : T → Int) (ascending : Bool)
    (l : List T) : List T :=
  let direction : Int := if ascending then 1 else -1
  l.mergeSort fun a b => decide ((fieldVal b - fieldVal a) * direction ≤ 0)

/-- The `try` block of `getBettingOpportunities` after the cache miss: its
only throw sites are the upstream call (a rejected promise) and the response
check (`throw new Error(...)`); `Except.error` carries the thrown message. -/
def bettingOpportunitiesBody (env : JsEnv)
    (api : BettingApiRequest → Except String (ApiClientResponse RawBettingOpportunity))
    (filters : UnifiedDataFilters) (now : Int) :
    Except String (UnifiedApiResponse UnifiedBettingOpportunity) :=
  match api (bettingRequestOf filters) with
  | Except.error msg => Except.error msg
  | Except.ok response =>
    if !response.success || response.data.isNone then
      Except.error (fetchErrorMessage (Except.ok response) "Failed to fetch betting opportunities")
    else
      let opportunities0 := (response.data.getD []).enum.map
        fun p => transformBettingOpportunity env now p.1 p.2
      let opportunities1 :=
        if strTruthy filters.sport && (filters.sport.getD "") ≠ UNIFIED_SPORTS.ALL then
          filterSportData UnifiedBettingOpportunity.sport opportunities0
            (filters.sport.getD "") ⟨true, true, false⟩
        else opportunities0
      let opportunities2 :=
        if numTruthy filters.minConfidence then
          opportunities1.filter fun opp => filters.minConfidence.getD 0 ≤ opp.confidence
        else opportunities1
      let opportunities3 :=
        if strTruthy filters.sortBy then
          jsSortByField (sortFieldBetting (filters.sortBy.getD ""))
            (filters.sortOrder == some "asc") opportunities2
        else opportunities2
      let opportunities4 :=
        if numTruthy filters.maxResults then jsSlice0 opportunities3 (filters.maxResults.getD 0)
        else opportunities3
      Except.ok
        { success := true, data := some opportunities4,
          count := some opportunities4.length, filters := some filters,
          error := none, timestamp := now, cached := none }

/-- `getBettingOpportunities`, as a function of the ambient environment, the
upstream client, the filters, the cache state and the current time; returns
the response together with the new cache state. On a valid cache hit the
entry is returned tagged `cached: true`; otherwise the `try` body runs, a
successful result is cached, and the catch block converts a thrown error to
`failureResponse` with no cache write. -/
def getBettingOpportunities (env : JsEnv)
    (api : BettingApiRequest → Except String (ApiClientResponse RawBettingOpportunity))
    (filters : UnifiedDataFilters) (cache : Cache) (now : Int) :
    UnifiedApiResponse UnifiedBettingOpportunity × Cache :=
  let cacheKey := getCacheKey "betting-opportunities" (jsonStringifyFilters filters)
  match getFromCache cache cacheKey now with
  | (some (CacheValue.betting hit), cache1) => ({ hit with cached := some true }, cache1)
  | (_, cache1) =>
    match bettingOpportunitiesBody env api filters now with
    | Except.ok result => (result, setCache cache1 cacheKey (CacheValue.betting result) now CACHE_TTL)
    | Except.error msg => (failureResponse _ msg now, cache1)

/-- The `try` block of `getPlayerProps` after the cache miss, structured
exactly as `bettingOpportunitiesBody`. -/
def playerPropsBody (env : JsEnv)
    (api : PropsApiRequest → Except String (ApiClientResponse RawPlayerProp))
    (filters : UnifiedDataFilters) (now : Int) :
    Except String (UnifiedApiResponse UnifiedPlayerProp) :=
  match api (propsRequestOf filters) with
  | Except.error msg => Except.error msg
  | Except.ok response =>
    if !response.success || response.data.isNone then
      Except.error (fetchErrorMessage (Except.ok response) "Failed to fetch player props")
    else
      let props0 := (response.data.getD []).enum.map
        fun p => transformPlayerProp env now p.1 p.2
      let props1 :=
        if strTruthy filters.sport && (filters.sport.getD "") ≠ UNIFIED_SPORTS.ALL then
          filterSportData UnifiedPlayerProp.sport props0
            (filters.sport.getD "") ⟨true, true, false⟩
        else props0
      let props2 :=
        if numTruthy filters.minConfidence then
          props1.filter fun prop => filters.minConfidence.getD 0 ≤ prop.confidence
        else props1
      let props3 :=
        if strTruthy filters.sortBy then
          jsSortByField (sortFieldProp (filters.sortBy.getD ""))
            (filters.sortOrder == some "asc") props2
        else props2
      let props4 :=
        if numTruthy filters.maxResults then jsSlice0 props3 (filters.maxResults.getD 0)
        else props3
      Except.ok
        { success := true, data := some props4, count := some props4.length,
          filters := some filters, error := none, timestamp := now, cached := none }

/-- `getPlayerProps`, structured exactly as `getBettingOpportunities`. -/
def getPlayerProps (env : JsEnv)
    (api : PropsApiRequest → Except String (ApiClientResponse RawPlayerProp))
    (filters : UnifiedDataFilters) (cache : Cache) (now : Int) :
    UnifiedApiResponse UnifiedPlayerProp × Cache :=
  let cacheKey := getCacheKey "player-props" (jsonStringifyFilters filters)
  match getFromCache cache cacheKey now with
  | (some (CacheValue.props hit), cache1) => ({ hit with cached := some true }, cache1)
  | (_, cache1) =>
    match playerPropsBody env api filters now with
    | Except.ok result => (result, setCache cache1 cacheKey (CacheValue.props result) now CACHE_TTL)
    | Except.error msg => (failureResponse _ msg now, cache1)

/-- The `{maxResults: 100}` filter object used by `getAvailableSports`. -/
def maxResults100 : UnifiedDataFilters := ⟨none, none, some 100, none, none, none⟩

/-- The hardcoded list returned by `getAvailableSports`'s catch block. -/
def defaultSportsFallback : List String :=
  [UNIFIED_SPORTS.ALL, UNIFIED_SPORTS.NBA, UNIFIED_SPORTS.NFL,
   UNIFIED_SPORTS.MLB, UNIFIED_SPORTS.NHL, UNIFIED_SPORTS.SOCCER]

/-- `getAvailableSports`. The source awaits `Promise.all` of the two sub-calls
on the shared single-threaded cache; they are modelled sequentially (their
cache keys are distinct, so the interleaving is not observable). The source
wraps the body in `try`/`catch` with `defaultSportsFallback` returned from the
catch block; every operation in the body is total — the two sub-calls catch
their own errors — so the body is embedded directly and the catch branch is
unreachable. -/
def getAvailableSports (env : JsEnv)
    (apiBetting : BettingApiRequest → Except String (ApiClientResponse RawBettingOpportunity))
    (apiProps : PropsApiRequest → Except String (ApiClientResponse RawPlayerProp))
    (cache : Cache) (now : Int) : List String × Cache :=
  let cacheKey := "available-sports"
  match getFromCache cache cacheKey now with
  | (some (CacheValue.sports hit), cache1) => (hit, cache1)
  | (_, cache1) =>
    let r1 := getBettingOpportunities env apiBetting maxResults100 cache1 now
    let r2 := getPlayerProps env apiProps maxResults100 r1.2 now
    let s1 :=
      match r1.1.data with
      | some l => l.foldl (fun acc opp => jsSetAdd acc opp.sport) []
      | none => []
    let s2 :=
      match r2.1.data with
      | some l => l.foldl (fun acc prop => jsSetAdd acc prop.sport) s1
      | none => s1
    let availableSports := UNIFIED_SPORTS.ALL :: s2
    (availableSports,
      setCache r2.2 cacheKey (CacheValue.sports availableSports) now (2 * 60 * 1000))

end UnifiedDataService

namespace UnifiedDataService

/-- Key uniqueness: the representation invariant of the JS `Map` (a `Map`
cannot hold two entries with the same key). -/
def CacheWF (c : Cache) : Prop := (c.map Prod.fst).Nodup

/-- Reading back the key just written. -/
theorem mapGet_mapSet_self (c : Cache) (k : String) (e : CacheEntry) :
    mapGet (mapSet c k e) k = some e := by
  induction c with
  | nil => simp [mapSet, mapGet]
  | cons hd tl ih =>
    by_cases hk : hd.1 = k
    · simp [mapSet, mapGet, hk]
    · simp [mapSet, mapGet, hk, ih]

/-- A key outside the key list reads as absent. -/
theorem mapGet_eq_none (c : Cache) (k : String) (h : k ∉ c.map Prod.fst) :
    mapGet c k = none := by
  induction c with
  | nil => rfl
  | cons hd tl ih =>
    simp only [List.map_cons, List.mem_cons] at h
    push_neg at h
    simp only [mapGet]
    rw [if_neg (fun he => h.1 he.symm)]
    exact ih h.2

/-- Any key of `mapSet c k e` is `k` or a key of `c`. -/
theorem mem_keys_mapSet (c : Cache) (k : String) (e : CacheEntry) (a : String)
    (h : a ∈ (mapSet c k e).map Prod.fst) : a = k ∨ a ∈ c.map Prod.fst := by
  induction c with
  | nil => simpa [mapSet] using h
  | cons hd tl ih =>
    by_cases hk : hd.1 = k
    · simp only [mapSet, if_pos hk, List.map_cons, List.mem_cons] at h
      rcases h with h | h
      · exact Or.inl h
      · exact Or.inr (by simp [h])
    · simp only [mapSet, if_neg hk, List.map_cons, List.mem_cons] at h
      rcases h with h | h
      · exact Or.inr (by simp [h])
      · rcases ih h with h' | h'
        · exact Or.inl h'
        · exact Or.inr (by simp [h'])

/-- `mapSet` preserves key uniqueness. -/
theorem cacheWF_mapSet (c : Cache) (k : String) (e : CacheEntry)
    (h : CacheWF c) : CacheWF (mapSet c k e) := by
  induction c with
  | nil => simp [CacheWF, mapSet]
  | cons hd tl ih =>
    unfold CacheWF at h
    simp only [List.map_cons, List.nodup_cons] at h
    by_cases hk : hd.1 = k
    · unfold CacheWF
      simp only [mapSet, if_pos hk, List.map_cons, List.nodup_cons]
      exact ⟨hk ▸ h.1, h.2⟩
    · unfold CacheWF
      simp only [mapSet, if_neg hk, List.map_cons, List.nodup_cons]
      refine ⟨?_, ih h.2⟩
      intro hmem
      rcases mem_keys_mapSet tl k e hd.1 hmem with h' | h'
      · exact hk h'
      · exact h.1 h'

/-- After `mapDelete` on a well-formed cache, the deleted key is absent. -/
theorem mapGet_mapDelete_self (c : Cache) (k : String) (h : CacheWF c) :
    mapGet (mapDelete c k) k = none := by
  induction c with
  | nil => rfl
  | cons hd tl ih =>
    unfold CacheWF at h
    simp only [List.map_cons, List.nodup_cons] at h
    by_cases hk : hd.1 = k
    · simp only [mapDelete, if_pos hk]
      exact mapGet_eq_none tl k (hk ▸ h.1)
    · simp only [mapDelete, if_neg hk, mapGet]
      exact ih h.2

/-- After a lookup that misses, the key is absent from the returned cache
(the entry either was absent or has been lazily deleted). -/
theorem getFromCache_miss_mapGet (c : Cache) (k : String) (now : Int)
    (c1 : Cache) (hwf : CacheWF c)
    (hm : getFromCache c k now = (none, c1)) : mapGet c1 k = none := by
  unfold getFromCache at hm
  cases hg : mapGet c k with
  | none =>
    rw [hg] at hm
    cases hm
    exact hg
  | some entry =>
    rw [hg] at hm
    split at hm
    · next x e heq =>
      split at hm
      · exact absurd (congrArg Prod.fst hm) (by simp)
      · rw [Prod.mk.injEq] at hm
        rw [← hm.2]
        exact mapGet_mapDelete_self c k hwf
    · next x heq =>
      exact Option.noConfusion heq

/-- When the upstream call fails, the `try` body of `getBettingOpportunities`
throws the corresponding message. -/
theorem bettingOpportunitiesBody_failed (env : JsEnv)
    (api : BettingApiRequest → Except String (ApiClientResponse RawBettingOpportunity))
    (filters : UnifiedDataFilters) (now : Int)
    (hfail : fetchFailed (api (bettingRequestOf filters)) = true) :
    bettingOpportunitiesBody env api filters now
      = Except.error (fetchErrorMessage (api (bettingRequestOf filters))
          "Failed to fetch betting opportunities") := by
  unfold bettingOpportunitiesBody
  cases hapi : api (bettingRequestOf filters) with
  | error m => rfl
  | ok r =>
    rw [hapi] at hfail
    simp only [fetchFailed] at hfail
    simp only [hfail]
    rfl

/-- When the upstream call fails, the `try` body of `getPlayerProps` throws
the corresponding message. -/
theorem playerPropsBody_failed (env : JsEnv)
    (api : PropsApiRequest → Except String (ApiClientResponse RawPlayerProp))
    (filters : UnifiedDataFilters) (now : Int)
    (hfail : fetchFailed (api (propsRequestOf filters)) = true) :
    playerPropsBody env api filters now
      = Except.error (fetchErrorMessage (api (propsRequestOf filters))
          "Failed to fetch player props") := by
  unfold playerPropsBody
  cases hapi : api (propsRequestOf filters) with
  | error m => rfl
  | ok r =>
    rw [hapi] at hfail
    simp only [fetchFailed] at hfail
    simp only [hfail]
    rfl

/-- On a cache miss with a failing upstream, `getBettingOpportunities`
returns the failure response and the post-lookup cache. -/
theorem getBettingOpportunities_missFailed (env : JsEnv)
    (api : BettingApiRequest → Except String (ApiClientResponse RawBettingOpportunity))
    (filters : UnifiedDataFilters) (cache : Cache) (now : Int) (c1 : Cache)
    (hmiss : getFromCache cache
      (getCacheKey "betting-opportunities" (jsonStringifyFilters filters)) now = (none, c1))
    (hfail : fetchFailed (api (bettingRequestOf filters)) = true) :
    getBettingOpportunities env api filters cache now
      = (failureResponse _ (fetchErrorMessage (api (bettingRequestOf filters))
          "Failed to fetch betting opportunities") now, c1) := by
  simp only [getBettingOpportunities]
  rw [hmiss, bettingOpportunitiesBody_failed env api filters now hfail]

/-- On a cache miss with a failing upstream, `getPlayerProps` returns the
failure response and the post-lookup cache. -/
theorem getPlayerProps_missFailed (env : JsEnv)
    (api : PropsApiRequest → Except String (ApiClientResponse RawPlayerProp))
    (filters : UnifiedDataFilters) (cache : Cache) (now : Int) (c1 : Cache)
    (hmiss : getFromCache cache
      (getCacheKey "player-props" (jsonStringifyFilters filters)) now = (none, c1))
    (hfail : fetchFailed (api (propsRequestOf filters)) = true) :
    getPlayerProps env api filters cache now
      = (failureResponse _ (fetchErrorMessage (api (propsRequestOf filters))
          "Failed to fetch player props") now, c1) := by
  simp only [getPlayerProps]
  rw [hmiss, playerPropsBody_failed env api filters now hfail]

end UnifiedDataService

namespace UnifiedDataService

/-- `CacheWF` holds for the empty cache. -/
theorem cacheWF_nil : CacheWF [] := List.Pairwise.nil

/-- C7: TTL semantics of the cache: an entry written at time `T` with
time-to-live `ttl` is a hit at every read time strictly before `T + ttl` and
a miss at every read time at or after `T + ttl`; and any entry found invalid
at read time is deleted from the cache during that lookup. -/
theorem cacheEntry_ttl_semantics (cache : Cache) (key : String) (v : CacheValue)
    (T ttl t : Int) (hwf : CacheWF cache) :
    (t < T + ttl →
      getFromCache (setCache cache key v T ttl) key t
        = (some v, setCache cache key v T ttl)) ∧
    (T + ttl ≤ t →
      (getFromCache (setCache cache key v T ttl) key t).1 = none ∧
      mapGet (getFromCache (setCache cache key v T ttl) key t).2 key = none) ∧
    (∀ (c : Cache) (e : CacheEntry), CacheWF c → mapGet c key = some e →
      isValidCacheEntry t e = false →
      mapGet (getFromCache c key t).2 key = none) := by
  have e1 : getFromCache (setCache cache key v T ttl) key t
      = if isValidCacheEntry t ⟨v, T, ttl⟩ then (some v, setCache cache key v T ttl)
        else (none, mapDelete (setCache cache key v T ttl) key) := by
    unfold getFromCache setCache
    rw [mapGet_mapSet_self]
  refine ⟨?_, ?_, ?_⟩
  · intro ht
    have hv : isValidCacheEntry t ⟨v, T, ttl⟩ = true := by
      simp only [isValidCacheEntry, decide_eq_true_eq]
      omega
    rw [e1, if_pos hv]
  · intro ht
    have hv : ¬ (isValidCacheEntry t ⟨v, T, ttl⟩ = true) := by
      simp only [isValidCacheEntry, decide_eq_true_eq]
      omega
    rw [e1, if_neg hv]
    exact ⟨rfl, mapGet_mapDelete_self _ _ (cacheWF_mapSet cache key _ hwf)⟩
  · intro c e hwfc hget hinv
    have e2 : getFromCache c key t = (none, mapDelete c key) := by
      unfold getFromCache
      rw [hget]
      simp [hinv]
    rw [e2]
    exact mapGet_mapDelete_self c key hwfc

/-- C7 witness: hit at `T + ttl - 1`, miss at `T + ttl + 1`, and lazy
deletion of the expired entry, on concrete values `T = 0`, `ttl = 10`. -/
theorem cacheEntry_ttl_semantics_witness :
    getFromCache (setCache [] "k" (CacheValue.sports []) 0 10) "k" 9
      = (some (CacheValue.sports []), setCache [] "k" (CacheValue.sports []) 0 10) ∧
    (getFromCache (setCache [] "k" (CacheValue.sports []) 0 10) "k" 11).1 = none ∧
    mapGet (getFromCache [("k", (⟨CacheValue.sports [], 0, 10⟩ : CacheEntry))] "k" 11).2 "k"
      = none := by
  refine ⟨(cacheEntry_ttl_semantics [] "k" (CacheValue.sports []) 0 10 9 cacheWF_nil).1 (by decide),
    ((cacheEntry_ttl_semantics [] "k" (CacheValue.sports []) 0 10 11 cacheWF_nil).2.1 (by decide)).1,
    (cacheEntry_ttl_semantics [] "k" (CacheValue.sports []) 0 10 11 cacheWF_nil).2.2
      [("k", ⟨CacheValue.sports [], 0, 10⟩)] ⟨CacheValue.sports [], 0, 10⟩
      (by simp [CacheWF]) rfl (by decide)⟩

/-- C6: the facade never throws: for every upstream client that fails on
every call (throws, or returns an unsuccessful or data-less response),
`getBettingOpportunities({})` on a fresh service returns (rather than
throwing) a response with `success: false`, empty `data`, and the thrown
message in `error`. Totality of the embedding is the non-rejection: the
`catch` branch converts the body's thrown error into the failure response. -/
theorem getBettingOpportunities_never_throws (env : JsEnv)
    (api : BettingApiRequest → Except String (ApiClientResponse RawBettingOpportunity))
    (now : Int) (h : ∀ req, fetchFailed (api req) = true) :
    (getBettingOpportunities env api emptyFilters [] now).1.success = false ∧
    (getBettingOpportunities env api emptyFilters [] now).1.data = some [] ∧
    (getBettingOpportunities env api emptyFilters [] now).1.error
      = some (fetchErrorMessage (api (bettingRequestOf emptyFilters))
          "Failed to fetch betting opportunities") := by
  rw [getBettingOpportunities_missFailed env api emptyFilters [] now [] rfl (h _)]
  exact ⟨rfl, rfl, rfl⟩

/-- C6 witness: a client that throws `"network down"` on every call. -/
theorem getBettingOpportunities_never_throws_witness :
    (getBettingOpportunities env0 (fun _ => Except.error "network down")
        emptyFilters [] 0).1.success = false ∧
    (getBettingOpportunities env0 (fun _ => Except.error "network down")
        emptyFilters [] 0).1.data = some [] ∧
    (getBettingOpportunities env0 (fun _ => Except.error "network down")
        emptyFilters [] 0).1.error = some "network down" := by
  have h := getBettingOpportunities_never_throws env0
    (fun _ => Except.error "network down") 0 (fun _ => rfl)
  exact ⟨h.1, h.2.1, h.2.2⟩

/-- C9 counterexample: a call that takes the error branch can still change
the cache map: with an expired entry sitting under the very cache key being
read, the initial lookup lazily deletes it, so the cache after the failed
call differs from the cache before it. -/
theorem errorBranch_cache_changed_cex :
    (getBettingOpportunities env0 (fun _ => Except.error "down") emptyFilters
        [(getCacheKey "betting-opportunities" (jsonStringifyFilters emptyFilters),
          (⟨CacheValue.sports [], 0, 1⟩ : CacheEntry))] 100).2
      ≠ [(getCacheKey "betting-opportunities" (jsonStringifyFilters emptyFilters),
          (⟨CacheValue.sports [], 0, 1⟩ : CacheEntry))] := by
  decide

/-- C9 amended: on the error branch no entry is written: for both
`getBettingOpportunities` and `getPlayerProps`, when the initial lookup
misses and the upstream call fails, the cache after the call is exactly the
post-lookup cache (which differs from the initial cache only by the lazy
deletion of an expired entry under the key), and the key is absent from it —
so a subsequent call with the same cache key misses and attempts a fresh
upstream fetch instead of replaying the failure. -/
theorem errorBranch_cache_not_written :
    (∀ (env : JsEnv)
      (api : BettingApiRequest → Except String (ApiClientResponse RawBettingOpportunity))
      (filters : UnifiedDataFilters) (cache c1 : Cache) (now : Int),
      CacheWF cache →
      getFromCache cache
        (getCacheKey "betting-opportunities" (jsonStringifyFilters filters)) now = (none, c1) →
      fetchFailed (api (bettingRequestOf filters)) = true →
      (getBettingOpportunities env api filters cache now).2 = c1 ∧
        mapGet c1 (getCacheKey "betting-opportunities" (jsonStringifyFilters filters)) = none) ∧
    (∀ (env : JsEnv)
      (api : PropsApiRequest → Except String (ApiClientResponse RawPlayerProp))
      (filters : UnifiedDataFilters) (cache c1 : Cache) (now : Int),
      CacheWF cache →
      getFromCache cache
        (getCacheKey "player-props" (jsonStringifyFilters filters)) now = (none, c1) →
      fetchFailed (api (propsRequestOf filters)) = true →
      (getPlayerProps env api filters cache now).2 = c1 ∧
        mapGet c1 (getCacheKey "player-props" (jsonStringifyFilters filters)) = none) := by
  constructor
  · intro env api filters cache c1 now hwf hmiss hfail
    refine ⟨?_, getFromCache_miss_mapGet _ _ _ _ hwf hmiss⟩
    rw [getBettingOpportunities_missFailed env api filters cache now c1 hmiss hfail]
  · intro env api filters cache c1 now hwf hmiss hfail
    refine ⟨?_, getFromCache_miss_mapGet _ _ _ _ hwf hmiss⟩
    rw [getPlayerProps_missFailed env api filters cache now c1 hmiss hfail]

/-- C9 witness: both endpoints on an empty cache with a throwing client. -/
theorem errorBranch_cache_not_written_witness :
    (getBettingOpportunities env0 (fun _ => Except.error "down") emptyFilters [] 0).2 = [] ∧
    (getPlayerProps env0 (fun _ => Except.error "down") emptyFilters [] 0).2 = [] := by
  have h1 := errorBranch_cache_not_written.1 env0 (fun _ => Except.error "down")
    emptyFilters [] [] 0 cacheWF_nil rfl rfl
  have h2 := errorBranch_cache_not_written.2 env0 (fun _ => Except.error "down")
    emptyFilters [] [] 0 cacheWF_nil rfl rfl
  exact ⟨h1.1, h2.1⟩

end UnifiedDataService

namespace UnifiedDataService

/-- On a cache miss, `getPlayerProps` runs the `try` body and either caches a
successful result or converts the thrown error into the failure response. -/
theorem getPlayerProps_miss (env : JsEnv)
    (api : PropsApiRequest → Except String (ApiClientResponse RawPlayerProp))
    (filters : UnifiedDataFilters) (cache : Cache) (now : Int) (c1 : Cache)
    (hmiss : getFromCache cache
      (getCacheKey "player-props" (jsonStringifyFilters filters)) now = (none, c1)) :
    getPlayerProps env api filters cache now
      = match playerPropsBody env api filters now with
        | Except.ok result =>
          (result, setCache c1 (getCacheKey "player-props" (jsonStringifyFilters filters))
            (CacheValue.props result) now CACHE_TTL)
        | Except.error msg => (failureResponse _ msg now, c1) := by
  simp only [getPlayerProps]
  rw [hmiss]

/-- C2 counterexample: a provider prop arriving with `confidence: 99` is
passed through unclamped by `getPlayerProps` — the returned record's
confidence is 99, outside `[50, 95]`. -/
theorem getPlayerProps_confidence_clamp_cex :
    (((getPlayerProps env0
        (fun _ => Except.ok ⟨true, some [{ emptyRawPlayerProp with confidence := some 99 }], none⟩)
        emptyFilters [] 0).1.data.getD []).map UnifiedPlayerProp.confidence = [99]) ∧
    ¬ (∀ p ∈ (getPlayerProps env0
        (fun _ => Except.ok ⟨true, some [{ emptyRawPlayerProp with confidence := some 99 }], none⟩)
        emptyFilters [] 0).1.data.getD [], 50 ≤ p.confidence ∧ p.confidence ≤ 95) := by
  decide

/-- C2 amended: the transform applies no clamping: on a successful fetch
(with the empty filter object) each returned record's confidence is exactly
the provider's value when that value is truthy, and the default 75 when it is
absent or 0; values outside `[50, 95]` pass through unchanged. -/
theorem getPlayerProps_confidence_unclamped (env : JsEnv)
    (api : PropsApiRequest → Except String (ApiClientResponse RawPlayerProp))
    (now : Int) (raws : List RawPlayerProp)
    (h : api (propsRequestOf emptyFilters) = Except.ok ⟨true, some raws, none⟩) :
    ((getPlayerProps env api emptyFilters [] now).1.data.getD []).map
        UnifiedPlayerProp.confidence
      = raws.map fun p => orNum p.confidence 75 := by
  have hbody : playerPropsBody env api emptyFilters now
      = Except.ok
          { success := true,
            data := some (raws.enum.map fun p => transformPlayerProp env now p.1 p.2),
            count := some ((raws.enum.map fun p => transformPlayerProp env now p.1 p.2).length : Int),
            filters := some emptyFilters, error := none, timestamp := now,
            cached := none } := by
    unfold playerPropsBody
    rw [h]
    rfl
  rw [getPlayerProps_miss env api emptyFilters [] now [] rfl, hbody]
  show ((raws.enum.map fun p => transformPlayerProp env now p.1 p.2).map
      UnifiedPlayerProp.confidence) = raws.map fun p => orNum p.confidence 75
  rw [List.map_map]
  rw [show (UnifiedPlayerProp.confidence ∘ fun p : Nat × RawPlayerProp =>
        transformPlayerProp env now p.1 p.2)
      = ((fun q : RawPlayerProp => orNum q.confidence 75) ∘ Prod.snd) from rfl]
  rw [← List.map_map, List.enum_map_snd]

/-- C2 witness: the amended theorem at a concrete provider response. -/
theorem getPlayerProps_confidence_unclamped_witness :
    ((getPlayerProps env0
        (fun _ => Except.ok ⟨true, some [{ emptyRawPlayerProp with confidence := some 99 }], none⟩)
        emptyFilters [] 0).1.data.getD []).map UnifiedPlayerProp.confidence
      = [{ emptyRawPlayerProp with confidence := some 99 }].map (fun p => orNum p.confidence 75) :=
  getPlayerProps_confidence_unclamped env0 _ 0
    [{ emptyRawPlayerProp with confidence := some 99 }] rfl

/-- C1 counterexample: with both upstream clients throwing on every call,
`getAvailableSports` resolves with just the wildcard list `["all"]` — not the
hardcoded fallback list of major sports. (The two sub-calls catch their own
errors and return empty data, so the catch block holding the fallback is
unreachable via upstream failures.) -/
theorem getAvailableSports_fallback_cex :
    (getAvailableSports env0 (fun _ => Except.error "network down")
        (fun _ => Except.error "network down") [] 0).1 = ["all"] ∧
    (getAvailableSports env0 (fun _ => Except.error "network down")
        (fun _ => Except.error "network down") [] 0).1 ≠ defaultSportsFallback := by
  decide

/-- C1 amended: a failing upstream never causes `getAvailableSports` to
reject: for every pair of upstream clients that throw on every call and a
fresh cache, the call resolves — but with just the wildcard `["all"]`, which
differs from the hardcoded fallback list `defaultSportsFallback`; the
fallback can only be produced by the catch block, which upstream failures
never reach. -/
theorem getAvailableSports_bothFail (env : JsEnv) (mB mP : String) (now : Int) :
    (getAvailableSports env (fun _ => Except.error mB)
        (fun _ => Except.error mP) [] now).1 = [UNIFIED_SPORTS.ALL] ∧
    (getAvailableSports env (fun _ => Except.error mB)
        (fun _ => Except.error mP) [] now).1 ≠ defaultSportsFallback := by
  refine ⟨rfl, ?_⟩
  rw [show (getAvailableSports env (fun _ => Except.error mB)
      (fun _ => Except.error mP) [] now).1 = [UNIFIED_SPORTS.ALL] from rfl]
  decide

end UnifiedDataService
